import Mathlib

/-!
Verification of the Lua chunk-extraction component of `dcs-lua-analyzer`
(`src/lua_embedder.py`).  The functions `extract_node_text`,
`get_node_line_range`, `get_node_metadata` and the pure extraction core of
`chunk_lua_file` are embedded shallowly: tree-sitter nodes become an
inductive `SyntaxNode`, raw file bytes become `List Nat`, Python's strict
`bytes.decode("utf-8")` becomes `decodeUtf8Strict` (an `Except` value) and
the lenient `decode("utf-8", errors="replace")` becomes `decodeUtf8Replace`
(total, substituting U+FFFD for each maximal invalid subpart).  A raised
`UnicodeDecodeError` is modelled by the `Except` error branch threaded
through the extraction exactly where Python's exception would propagate.
-/

namespace DcsLua

/-- Row/column position of a tree-sitter point (0-based, as tree-sitter reports). -/
structure Point where
  row : Nat
  col : Nat
  deriving DecidableEq, Repr

/-- A tree-sitter syntax node: type tag, byte span, point span, children. -/
inductive SyntaxNode where
  | mk (type : String) (start_byte : Nat) (end_byte : Nat)
       (start_point : Point) (end_point : Point)
       (children : List SyntaxNode) : SyntaxNode

/-- Node type tag. -/
def SyntaxNode.type : SyntaxNode → String
  | .mk t _ _ _ _ _ => t

/-- Start byte offset of the node's span. -/
def SyntaxNode.start_byte : SyntaxNode → Nat
  | .mk _ s _ _ _ _ => s

/-- End byte offset (exclusive) of the node's span. -/
def SyntaxNode.end_byte : SyntaxNode → Nat
  | .mk _ _ e _ _ _ => e

/-- Start point (row, col) of the node. -/
def SyntaxNode.start_point : SyntaxNode → Point
  | .mk _ _ _ p _ _ => p

/-- End point (row, col) of the node. -/
def SyntaxNode.end_point : SyntaxNode → Point
  | .mk _ _ _ _ p _ => p

/-- Direct children of the node. -/
def SyntaxNode.children : SyntaxNode → List SyntaxNode
  | .mk _ _ _ _ _ cs => cs

/-- The single runtime error the embedded code can raise: Python's
`UnicodeDecodeError` from a strict UTF-8 decode. -/
inductive PyError where
  | decodeError
  deriving DecidableEq, Repr

/-- Chunk metadata: Python builds a dict that always holds `node_type` and
optionally `name` (function definitions) or `names` (variable declarations);
absent keys are modelled as `none`. -/
structure Metadata where
  node_type : String
  name : Option String
  names : Option (List String)
  deriving DecidableEq, Repr

/-- One output chunk of `chunk_lua_file` (the dict appended to `chunks`). -/
structure Chunk where
  id : Nat
  file_path : String
  chunk_type : String
  content : String
  metadata : Metadata
  line_start : Nat
  line_end : Nat
  parent_id : Option Nat
  deriving DecidableEq, Repr

/-! ## UTF-8 decoding (model of Python `bytes.decode`) -/

/-- Continuation byte test: `0x80..0xBF`. -/
def isCont (b : Nat) : Bool := 0x80 ≤ b && b ≤ 0xBF

/-- Leading byte of a 2-byte sequence (`0xC2..0xDF`; `0xC0`/`0xC1` are overlong). -/
def isLead2 (b : Nat) : Bool := 0xC2 ≤ b && b ≤ 0xDF

/-- Leading byte of a 3-byte sequence. -/
def isLead3 (b : Nat) : Bool := 0xE0 ≤ b && b ≤ 0xEF

/-- Leading byte of a 4-byte sequence. -/
def isLead4 (b : Nat) : Bool := 0xF0 ≤ b && b ≤ 0xF4

/-- Admissible second byte given the leading byte: rules out overlong forms,
surrogates (`0xED`) and codepoints above `0x10FFFF` (`0xF4`). -/
def cont2Ok (b1 b2 : Nat) : Bool :=
  if b1 == 0xE0 then 0xA0 ≤ b2 && b2 ≤ 0xBF
  else if b1 == 0xED then 0x80 ≤ b2 && b2 ≤ 0x9F
  else if b1 == 0xF0 then 0x90 ≤ b2 && b2 ≤ 0xBF
  else if b1 == 0xF4 then 0x80 ≤ b2 && b2 ≤ 0x8F
  else isCont b2

/-- Codepoint of a valid 2-byte sequence. -/
def dec2 (b1 b2 : Nat) : Char := Char.ofNat ((b1 - 0xC0) * 64 + (b2 - 0x80))

/-- Codepoint of a valid 3-byte sequence. -/
def dec3 (b1 b2 b3 : Nat) : Char :=
  Char.ofNat ((b1 - 0xE0) * 4096 + (b2 - 0x80) * 64 + (b3 - 0x80))

/-- Codepoint of a valid 4-byte sequence. -/
def dec4 (b1 b2 b3 b4 : Nat) : Char :=
  Char.ofNat ((b1 - 0xF0) * 262144 + (b2 - 0x80) * 4096 + (b3 - 0x80) * 64 + (b4 - 0x80))

/-- Strict UTF-8 decoding of a byte list: `some` chars on valid input,
`none` on any malformed sequence (Python `bytes.decode("utf-8")` raising). -/
def utf8DecodeStrict : List Nat → Option (List Char)
  | [] => some []
  | b1 :: rest =>
    if b1 < 0x80 then
      (utf8DecodeStrict rest).map (fun cs => Char.ofNat b1 :: cs)
    else if isLead2 b1 then
      match rest with
      | b2 :: rest2 =>
        if isCont b2 then (utf8DecodeStrict rest2).map (fun cs => dec2 b1 b2 :: cs)
        else none
      | [] => none
    else if isLead3 b1 then
      match rest with
      | b2 :: rest2 =>
        if cont2Ok b1 b2 then
          match rest2 with
          | b3 :: rest3 =>
            if isCont b3 then (utf8DecodeStrict rest3).map (fun cs => dec3 b1 b2 b3 :: cs)
            else none
          | [] => none
        else none
      | [] => none
    else if isLead4 b1 then
      match rest with
      | b2 :: rest2 =>
        if cont2Ok b1 b2 then
          match rest2 with
          | b3 :: rest3 =>
            if isCont b3 then
              match rest3 with
              | b4 :: rest4 =>
                if isCont b4 then
                  (utf8DecodeStrict rest4).map (fun cs => dec4 b1 b2 b3 b4 :: cs)
                else none
              | [] => none
            else none
          | [] => none
        else none
      | [] => none
    else none

/-- The U+FFFD replacement character. -/
def repl : Char := Char.ofNat 0xFFFD

/-- Lenient UTF-8 decoding (Python `decode("utf-8", errors="replace")`):
total, each maximal invalid subpart becomes one U+FFFD. -/
def utf8DecodeReplace : List Nat → List Char
  | [] => []
  | b1 :: rest =>
    if b1 < 0x80 then Char.ofNat b1 :: utf8DecodeReplace rest
    else if isLead2 b1 then
      match rest with
      | b2 :: rest2 =>
        if isCont b2 then dec2 b1 b2 :: utf8DecodeReplace rest2
        else repl :: utf8DecodeReplace (b2 :: rest2)
      | [] => [repl]
    else if isLead3 b1 then
      match rest with
      | b2 :: rest2 =>
        if cont2Ok b1 b2 then
          match rest2 with
          | b3 :: rest3 =>
            if isCont b3 then dec3 b1 b2 b3 :: utf8DecodeReplace rest3
            else repl :: utf8DecodeReplace (b3 :: rest3)
          | [] => [repl]
        else repl :: utf8DecodeReplace (b2 :: rest2)
      | [] => [repl]
    else if isLead4 b1 then
      match rest with
      | b2 :: rest2 =>
        if cont2Ok b1 b2 then
          match rest2 with
          | b3 :: rest3 =>
            if isCont b3 then
              match rest3 with
              | b4 :: rest4 =>
                if isCont b4 then dec4 b1 b2 b3 b4 :: utf8DecodeReplace rest4
                else repl :: utf8DecodeReplace (b4 :: rest4)
              | [] => [repl]
            else repl :: utf8DecodeReplace (b3 :: rest3)
          | [] => [repl]
        else repl :: utf8DecodeReplace (b2 :: rest2)
      | [] => [repl]
    else repl :: utf8DecodeReplace rest

/-- Strict decode packaged as the Python call `bytes.decode("utf-8")`:
a `String` on success, a propagating `UnicodeDecodeError` otherwise. -/
def decodeUtf8Strict (l : List Nat) : Except PyError String :=
  match utf8DecodeStrict l with
  | some cs => .ok (String.mk cs)
  | none => .error .decodeError

/-- Lenient decode packaged as `bytes.decode("utf-8", errors="replace")`. -/
def decodeUtf8Replace (l : List Nat) : String := String.mk (utf8DecodeReplace l)

/-- Python byte-slice `l[a:b]` (non-negative indices, clamped at the end). -/
def pySlice (l : List Nat) (a b : Nat) : List Nat := (l.drop a).take (b - a)

/-- UTF-8 encoding of one scalar value, used to build concrete byte buffers. -/
def encodeChar (c : Char) : List Nat :=
  let n := c.toNat
  if n < 0x80 then [n]
  else if n < 0x800 then [0xC0 + n / 64, 0x80 + n % 64]
  else if n < 0x10000 then [0xE0 + n / 4096, 0x80 + (n / 64) % 64, 0x80 + n % 64]
  else [0xF0 + n / 262144, 0x80 + (n / 4096) % 64, 0x80 + (n / 64) % 64, 0x80 + n % 64]

/-- UTF-8 byte buffer of a string (what Python reads from disk for it). -/
def strBytes (s : String) : List Nat := (s.data.map encodeChar).flatten

/-- Whitespace stripped by Python `str.strip()` (the ASCII whitespace set;
the only whitespace that occurs in the Lua sources being chunked). -/
def pyIsSpace (c : Char) : Bool :=
  c == ' ' || c == '\t' || c == '\n' || c == '\r' || c == '\x0B' || c == '\x0C'

/-- Python `str.strip()`: drop leading and trailing whitespace. -/
def pyStrip (s : String) : String :=
  String.mk (((s.data.dropWhile pyIsSpace).reverse.dropWhile pyIsSpace).reverse)

/-! ## The extraction functions of `src/lua_embedder.py` -/

/-- Translation of `extract_node_text` (lua_embedder.py:87-89):
`source_bytes[node.start_byte:node.end_byte].decode('utf-8')`, a strict
decode whose failure propagates as an exception. -/
def extract_node_text (node : SyntaxNode) (source_bytes : List Nat) : Except PyError String :=
  decodeUtf8Strict (pySlice source_bytes node.start_byte node.end_byte)

/-- Translation of `get_node_line_range` (lua_embedder.py:91-93):
`(node.start_point[0] + 1, node.end_point[0] + 1)`. -/
def get_node_line_range (node : SyntaxNode) : Nat × Nat :=
  (node.start_point.row + 1, node.end_point.row + 1)

/-- The identifier nodes Python's `get_node_metadata` walks for a
`variable_declaration`: every `identifier` child of every `variable_list`
child, in order. -/
def identifier_nodes (node : SyntaxNode) : List SyntaxNode :=
  ((node.children.filter (fun c => c.type == "variable_list")).map
    (fun vl => vl.children.filter (fun c => c.type == "identifier"))).flatten

/-- Decoded texts of a list of nodes; the first decode failure propagates,
exactly as Python's loop raising mid-iteration. -/
def collectTexts (nodes : List SyntaxNode) (source_bytes : List Nat) :
    Except PyError (List String) :=
  match nodes with
  | [] => .ok []
  | n :: rest =>
    match extract_node_text n source_bytes with
    | .error e => .error e
    | .ok t =>
      match collectTexts rest source_bytes with
      | .error e => .error e
      | .ok ts => .ok (t :: ts)

/-- Translation of `get_node_metadata` (lua_embedder.py:95-117): always
records `node_type`; for a `function_definition` the first `name` child's
text becomes `name`; for a `variable_declaration` the identifier texts
become `names` when non-empty. -/
def get_node_metadata (node : SyntaxNode) (source_bytes : List Nat) :
    Except PyError Metadata :=
  if node.type = "function_definition" then
    match node.children.find? (fun c => c.type == "name") with
    | some nameNode =>
      match extract_node_text nameNode source_bytes with
      | .error e => .error e
      | .ok t => .ok { node_type := node.type, name := some t, names := none }
    | none => .ok { node_type := node.type, name := none, names := none }
  else if node.type = "variable_declaration" then
    match collectTexts (identifier_nodes node) source_bytes with
    | .error e => .error e
    | .ok ns =>
      .ok { node_type := node.type, name := none,
            names := if ns.isEmpty then none else some ns }
  else
    .ok { node_type := node.type, name := none, names := none }

/-- The allow-list `interesting_node_types` (lua_embedder.py:130-142). -/
def interesting_node_types : List String :=
  ["function_definition",
   "table_constructor",
   "variable_declaration",
   "assignment_statement",
   "comment",
   "if_statement",
   "for_statement",
   "while_statement",
   "repeat_statement",
   "do_statement",
   "local_function"]

/-- Translation of the nested `process_node` (lua_embedder.py:144-165),
with the mutable `chunks` list made an explicit argument/result: an
allow-listed node whose stripped text has at least 5 characters is appended
as a chunk with id `chunks.length + 1`; others leave `chunks` unchanged;
decode failures propagate. -/
def process_node (file_path : String) (source_bytes : List Nat)
    (chunks : List Chunk) (node : SyntaxNode) (parent_id : Option Nat) :
    Except PyError (List Chunk) :=
  if node.type ∈ interesting_node_types then
    match extract_node_text node source_bytes with
    | .error e => .error e
    | .ok text =>
      if (pyStrip text).length < 5 then .ok chunks
      else
        match get_node_metadata node source_bytes with
        | .error e => .error e
        | .ok md =>
          .ok (chunks ++ [{
            id := chunks.length + 1,
            file_path := file_path,
            chunk_type := node.type,
            content := text,
            metadata := md,
            line_start := (get_node_line_range node).1,
            line_end := (get_node_line_range node).2,
            parent_id := parent_id }])
  else .ok chunks

/-- The loop `for child in root_node.children: process_node(child)`
(lua_embedder.py:167-169), threading the chunk list and stopping at the
first raised decode error. -/
def process_children (file_path : String) (source_bytes : List Nat)
    (chunks : List Chunk) : List SyntaxNode → Except PyError (List Chunk)
  | [] => .ok chunks
  | c :: cs =>
    match process_node file_path source_bytes chunks c none with
    | .error e => .error e
    | .ok chunks2 => process_children file_path source_bytes chunks2 cs

/-- The fallback file-level chunk appended when no chunk was extracted
(lua_embedder.py:172-182). -/
def fallback_chunk (file_path : String) (root_node : SyntaxNode)
    (source_bytes : List Nat) : Chunk :=
  { id := 1,
    file_path := file_path,
    chunk_type := "file",
    content := decodeUtf8Replace source_bytes,
    metadata := { node_type := "file", name := none, names := none },
    line_start := 1,
    line_end := root_node.end_point.row + 1,
    parent_id := none }

/-- Translation of the chunk-extraction core of `chunk_lua_file`
(lua_embedder.py:119-184), i.e. the spec's
`extract(root, sourceBytes, filePath)`: file reading and parsing are the
caller's, the parsed root node and raw bytes are taken as inputs. -/
def chunk_lua_file (file_path : String) (root_node : SyntaxNode)
    (source_bytes : List Nat) : Except PyError (List Chunk) :=
  match process_children file_path source_bytes [] root_node.children with
  | .error e => .error e
  | .ok chunks =>
    if chunks.isEmpty then .ok [fallback_chunk file_path root_node source_bytes]
    else .ok chunks

/-- Qualification test distilled from `process_node`: the node types that
produce a chunk are exactly the allow-listed ones whose span decodes
strictly and whose stripped text has at least 5 characters. -/
def qualifies (source_bytes : List Nat) (node : SyntaxNode) : Bool :=
  decide (node.type ∈ interesting_node_types) &&
    match extract_node_text node source_bytes with
    | .ok t => decide (5 ≤ (pyStrip t).length)
    | .error _ => false

/-- Relation between a source node and the chunk it yields: all chunk
fields are determined by the node, the buffer, and the parent id. -/
def chunkFromNode (fp : String) (src : List Nat) (pid : Option Nat)
    (c : SyntaxNode) (ch : Chunk) : Prop :=
  c.type ∈ interesting_node_types ∧
  extract_node_text c src = .ok ch.content ∧
  5 ≤ (pyStrip ch.content).length ∧
  get_node_metadata c src = .ok ch.metadata ∧
  ch.file_path = fp ∧
  ch.chunk_type = c.type ∧
  ch.line_start = c.start_point.row + 1 ∧
  ch.line_end = c.end_point.row + 1 ∧
  ch.parent_id = pid

/-! ## Structural lemmas about the extraction -/

theorem get_node_metadata_node_type {node : SyntaxNode} {src : List Nat}
    {md : Metadata} (h : get_node_metadata node src = .ok md) :
    md.node_type = node.type := by
  unfold get_node_metadata at h
  split at h
  · split at h
    · split at h
      · cases h
      · cases h; rfl
    · cases h; rfl
  · split at h
    · split at h
      · cases h
      · cases h; rfl
    · cases h; rfl

theorem process_node_ok {fp : String} {src : List Nat} {acc : List Chunk}
    {c : SyntaxNode} {pid : Option Nat} {res : List Chunk}
    (h : process_node fp src acc c pid = .ok res) :
    (qualifies src c = false ∧ res = acc) ∨
    (qualifies src c = true ∧
      ∃ ch, res = acc ++ [ch] ∧ ch.id = acc.length + 1 ∧ chunkFromNode fp src pid c ch) := by
  unfold process_node at h
  by_cases hmem : c.type ∈ interesting_node_types
  · rw [if_pos hmem] at h
    cases hext : extract_node_text c src with
    | error e => simp [hext] at h
    | ok text =>
      simp only [hext] at h
      by_cases hsmall : (pyStrip text).length < 5
      · rw [if_pos hsmall] at h
        cases h
        exact Or.inl ⟨by simp [qualifies, hext, Nat.not_le_of_lt hsmall], rfl⟩
      · rw [if_neg hsmall] at h
        cases hmd : get_node_metadata c src with
        | error e => simp [hmd] at h
        | ok md =>
          simp only [hmd] at h
          cases h
          refine Or.inr ⟨by simp [qualifies, hext, hmem, Nat.le_of_not_lt hsmall], ?_⟩
          exact ⟨_, rfl, rfl,
            hmem, hext, Nat.le_of_not_lt hsmall, hmd, rfl, rfl, rfl, rfl, rfl⟩
  · rw [if_neg hmem] at h
    cases h
    exact Or.inl ⟨by simp [qualifies, hmem], rfl⟩

theorem process_children_ok {fp : String} {src : List Nat} :
    ∀ (cs : List SyntaxNode) (acc res : List Chunk),
    process_children fp src acc cs = .ok res →
    ∃ tail, res = acc ++ tail ∧
      tail.length = (cs.filter (fun c => qualifies src c)).length ∧
      (∀ ch ∈ tail, ∃ c ∈ cs, chunkFromNode fp src none c ch) ∧
      tail.map (fun ch => ch.id) = List.range' (acc.length + 1) tail.length := by
  intro cs
  induction cs with
  | nil =>
    intro acc res h
    unfold process_children at h
    cases h
    exact ⟨[], by simp, by simp, by simp, by simp⟩
  | cons c cs ih =>
    intro acc res h
    unfold process_children at h
    cases hpn : process_node fp src acc c none with
    | error e => rw [hpn] at h; cases h
    | ok acc2 =>
      rw [hpn] at h
      obtain ⟨tail2, rfl, hlen, hmem, hids⟩ := ih acc2 res h
      rcases process_node_ok hpn with ⟨hq, rfl⟩ | ⟨hq, ch, rfl, hid, hrel⟩
      · refine ⟨tail2, rfl, ?_, ?_, hids⟩
        · simpa [List.filter_cons, hq] using hlen
        · intro x hx
          obtain ⟨c2, hc2, hrel2⟩ := hmem x hx
          exact ⟨c2, List.mem_cons_of_mem _ hc2, hrel2⟩
      · refine ⟨ch :: tail2, by simp, ?_, ?_, ?_⟩
        · simpa [List.filter_cons, hq] using hlen
        · intro x hx
          rcases List.mem_cons.mp hx with rfl | hx2
          · exact ⟨c, List.mem_cons_self _ _, hrel⟩
          · obtain ⟨c2, hc2, hrel2⟩ := hmem x hx2
            exact ⟨c2, List.mem_cons_of_mem _ hc2, hrel2⟩
        · have hlen2 : (acc ++ [ch]).length = acc.length + 1 := by simp
          rw [List.map_cons, hids, hid, hlen2, List.length_cons, List.range'_succ]

theorem chunk_lua_file_ok_cases {fp : String} {root : SyntaxNode}
    {src : List Nat} {out : List Chunk}
    (h : chunk_lua_file fp root src = .ok out) :
    (out = [fallback_chunk fp root src] ∧
      (root.children.filter (fun c => qualifies src c)).length = 0) ∨
    (out.length = (root.children.filter (fun c => qualifies src c)).length ∧
      (∀ ch ∈ out, ∃ c ∈ root.children, chunkFromNode fp src none c ch) ∧
      out.map (fun ch => ch.id) = List.range' 1 out.length) := by
  unfold chunk_lua_file at h
  cases hpc : process_children fp src [] root.children with
  | error e => simp [hpc] at h
  | ok chunks =>
    simp only [hpc] at h
    obtain ⟨tail, htail, hlen, hmem, hids⟩ := process_children_ok root.children [] chunks hpc
    simp only [List.nil_append] at htail
    subst htail
    cases chunks with
    | nil =>
      simp only [List.isEmpty_nil, if_true] at h
      cases h
      exact Or.inl ⟨rfl, by simpa using hlen.symm⟩
    | cons ch tl =>
      simp only [List.isEmpty_cons, if_false, Bool.false_eq_true] at h
      cases h
      exact Or.inr ⟨hlen, hmem, by simpa using hids⟩

theorem process_children_small {fp : String} {src : List Nat} :
    ∀ (cs : List SyntaxNode) (acc : List Chunk),
    (∀ c ∈ cs, c.type ∈ interesting_node_types →
      ∃ t, extract_node_text c src = .ok t ∧ (pyStrip t).length < 5) →
    process_children fp src acc cs = .ok acc := by
  intro cs
  induction cs with
  | nil => intro acc _; rfl
  | cons c cs ih =>
    intro acc hcs
    have hpn : process_node fp src acc c none = .ok acc := by
      unfold process_node
      by_cases hmem : c.type ∈ interesting_node_types
      · obtain ⟨t, ht, hlt⟩ := hcs c (List.mem_cons_self _ _) hmem
        simp [hmem, ht, hlt]
      · rw [if_neg hmem]
    unfold process_children
    rw [hpn]
    exact ih acc (fun c2 hc2 => hcs c2 (List.mem_cons_of_mem _ hc2))

theorem process_children_err {fp : String} {src : List Nat} :
    ∀ (cs : List SyntaxNode) (acc : List Chunk),
    (∃ c ∈ cs, c.type ∈ interesting_node_types ∧
      extract_node_text c src = .error .decodeError) →
    process_children fp src acc cs = .error .decodeError := by
  intro cs
  induction cs with
  | nil => intro acc h; simp at h
  | cons c cs ih =>
    intro acc h
    unfold process_children
    cases hpn : process_node fp src acc c none with
    | error e =>
      cases e
      rfl
    | ok acc2 =>
      obtain ⟨d, hd, hdmem, hderr⟩ := h
      rcases List.mem_cons.mp hd with rfl | hd2
      · exfalso
        unfold process_node at hpn
        simp [hdmem, hderr] at hpn
      · exact ih acc2 ⟨d, hd2, hdmem, hderr⟩

/-! ## Concrete fixtures used by the witnesses -/

/-- A top-level comment node spanning the 16-byte source `-- hello comment`. -/
def commentA : SyntaxNode := .mk "comment" 0 16 ⟨0, 0⟩ ⟨0, 16⟩ []

/-- Root node for the one-comment source. -/
def rootA : SyntaxNode := .mk "chunk" 0 16 ⟨0, 0⟩ ⟨0, 16⟩ [commentA]

/-- Byte buffer of `-- hello comment`. -/
def srcA : List Nat := strBytes "-- hello comment"

/-- The single chunk extracted from the one-comment source. -/
def chunkA : Chunk :=
  { id := 1, file_path := "a.lua", chunk_type := "comment",
    content := "-- hello comment",
    metadata := { node_type := "comment", name := none, names := none },
    line_start := 1, line_end := 1, parent_id := none }

/-- A top-level comment node for the 3-byte source `--x`, below the size filter. -/
def commentB : SyntaxNode := .mk "comment" 0 3 ⟨0, 0⟩ ⟨0, 0⟩ []

/-- Root node for the too-small-comment source. -/
def rootB : SyntaxNode := .mk "chunk" 0 3 ⟨0, 0⟩ ⟨0, 0⟩ [commentB]

/-- Byte buffer of `--x`. -/
def srcB : List Nat := strBytes "--x"

/-! ## The claims -/

/-- C1: whenever no direct child of the root both carries an allow-listed
node type and survives the size filter (every allow-listed child decodes
strictly to a text whose stripped length is below 5), extraction returns
exactly one fallback chunk with `chunk_type = "file"`, `id = 1`,
`parent_id = none`, `metadata = {node_type: "file"}`, `line_start = 1` and
`line_end` equal to the root's 0-based end row plus 1. -/
theorem C1_fallback_file_chunk (fp : String) (root : SyntaxNode) (src : List Nat)
    (h : ∀ c ∈ root.children, c.type ∈ interesting_node_types →
      ∃ t, extract_node_text c src = .ok t ∧ (pyStrip t).length < 5) :
    chunk_lua_file fp root src = .ok [fallback_chunk fp root src] ∧
    (fallback_chunk fp root src).chunk_type = "file" ∧
    (fallback_chunk fp root src).id = 1 ∧
    (fallback_chunk fp root src).parent_id = none ∧
    (fallback_chunk fp root src).metadata =
      { node_type := "file", name := none, names := none } ∧
    (fallback_chunk fp root src).line_start = 1 ∧
    (fallback_chunk fp root src).line_end = root.end_point.row + 1 := by
  refine ⟨?_, rfl, rfl, rfl, rfl, rfl, rfl⟩
  unfold chunk_lua_file
  rw [process_children_small root.children [] h]
  rfl

/-- Witness for C1: the source `--x`, a single comment below the size
filter, yields exactly the fallback file chunk. -/
theorem C1_fallback_file_chunk_witness :
    chunk_lua_file "b.lua" rootB srcB = .ok [fallback_chunk "b.lua" rootB srcB] :=
  (C1_fallback_file_chunk "b.lua" rootB srcB (by
    intro c hc _
    have hc2 : c = commentB := by
      simpa [rootB, SyntaxNode.children] using hc
    subst hc2
    exact ⟨"--x", rfl, by decide⟩)).1

/-- C2: whenever a successful run has at least one qualifying direct child
(allow-listed type, stripped decoded text of length at least 5), the output
has exactly one chunk per qualifying child and contains no fallback chunk:
every produced chunk's type is allow-listed and in particular not `"file"`. -/
theorem C2_no_fallback_when_qualifying (fp : String) (root : SyntaxNode)
    (src : List Nat) (out : List Chunk)
    (h : chunk_lua_file fp root src = .ok out)
    (hq : ∃ c ∈ root.children, qualifies src c = true) :
    out.length = (root.children.filter (fun c => qualifies src c)).length ∧
    ∀ ch ∈ out, ch.chunk_type ∈ interesting_node_types ∧ ch.chunk_type ≠ "file" := by
  obtain ⟨c, hc, hqc⟩ := hq
  have hpos : 0 < (root.children.filter (fun c => qualifies src c)).length :=
    List.length_pos.mpr (List.ne_nil_of_mem (List.mem_filter.mpr ⟨hc, hqc⟩))
  rcases chunk_lua_file_ok_cases h with ⟨_, hzero⟩ | ⟨hlen, hmem, _⟩
  · omega
  · refine ⟨hlen, ?_⟩
    intro ch hch
    obtain ⟨c2, _, hmem2, _, _, _, _, hct, _⟩ := hmem ch hch
    refine ⟨hct ▸ hmem2, ?_⟩
    intro hfile
    rw [hfile] at hct
    have : ("file" : String) ∈ interesting_node_types := hct ▸ hmem2
    simp [interesting_node_types] at this

/-- Witness for C2: the source `-- hello comment` with one qualifying
comment child yields one comment chunk and no fallback. -/
theorem C2_no_fallback_when_qualifying_witness :
    [chunkA].length = (rootA.children.filter (fun c => qualifies srcA c)).length ∧
    ∀ ch ∈ [chunkA], ch.chunk_type ∈ interesting_node_types ∧ ch.chunk_type ≠ "file" :=
  C2_no_fallback_when_qualifying "a.lua" rootA srcA [chunkA] rfl
    ⟨commentA, show commentA ∈ [commentA] from List.mem_singleton.mpr rfl, by decide⟩

/-- C3: for every successful run, the ids of the returned chunks are the
dense 1-based sequence `1, 2, ...` matching output order. -/
theorem C3_dense_ids (fp : String) (root : SyntaxNode) (src : List Nat)
    (out : List Chunk) (h : chunk_lua_file fp root src = .ok out) :
    out.map (fun ch => ch.id) = List.range' 1 out.length := by
  rcases chunk_lua_file_ok_cases h with ⟨rfl, _⟩ | ⟨_, _, hids⟩
  · rfl
  · exact hids

/-- Witness for C3 on the one-comment run. -/
theorem C3_dense_ids_witness :
    [chunkA].map (fun ch => ch.id) = List.range' 1 [chunkA].length :=
  C3_dense_ids "a.lua" rootA srcA [chunkA] rfl

/-- C4: no chunk other than the fallback file chunk has content whose
stripped length is below 5; a node failing the size filter produces no
chunk. -/
theorem C4_size_filter (fp : String) (root : SyntaxNode) (src : List Nat)
    (out : List Chunk) (h : chunk_lua_file fp root src = .ok out) :
    ∀ ch ∈ out, ch.chunk_type = "file" ∨ 5 ≤ (pyStrip ch.content).length := by
  intro ch hch
  rcases chunk_lua_file_ok_cases h with ⟨rfl, _⟩ | ⟨_, hmem, _⟩
  · have hch2 : ch = fallback_chunk fp root src := List.mem_singleton.mp hch
    subst hch2
    exact Or.inl rfl
  · obtain ⟨c2, _, _, _, h5, _⟩ := hmem ch hch
    exact Or.inr h5

/-- Witness for C4 on the one-comment run. -/
theorem C4_size_filter_witness :
    chunkA.chunk_type = "file" ∨ 5 ≤ (pyStrip chunkA.content).length :=
  C4_size_filter "a.lua" rootA srcA [chunkA] rfl chunkA
    (List.mem_singleton.mpr rfl)

/-- C5: every non-fallback chunk's stored content is exactly the strict
UTF-8 decoding of `sourceBytes[start_byte:end_byte]` for some direct child
of the root, with no normalization applied. -/
theorem C5_content_roundtrip (fp : String) (root : SyntaxNode) (src : List Nat)
    (out : List Chunk) (h : chunk_lua_file fp root src = .ok out) :
    ∀ ch ∈ out, ch.chunk_type = "file" ∨
      ∃ c ∈ root.children,
        decodeUtf8Strict (pySlice src c.start_byte c.end_byte) = .ok ch.content := by
  intro ch hch
  rcases chunk_lua_file_ok_cases h with ⟨rfl, _⟩ | ⟨_, hmem, _⟩
  · have hch2 : ch = fallback_chunk fp root src := List.mem_singleton.mp hch
    subst hch2
    exact Or.inl rfl
  · obtain ⟨c2, hc2, _, hext, _⟩ := hmem ch hch
    exact Or.inr ⟨c2, hc2, hext⟩

/-- Witness for C5 on the one-comment run. -/
theorem C5_content_roundtrip_witness :
    chunkA.chunk_type = "file" ∨
    ∃ c ∈ rootA.children,
      decodeUtf8Strict (pySlice srcA c.start_byte c.end_byte) = .ok chunkA.content :=
  C5_content_roundtrip "a.lua" rootA srcA [chunkA] rfl chunkA
    (List.mem_singleton.mpr rfl)

/-- Name child of the modelled local-function statement, spanning `foo`. -/
def nameNodeC6 : SyntaxNode := .mk "name" 15 18 ⟨0, 15⟩ ⟨0, 18⟩ []

/-- Modelled from the spec: the tree-sitter Lua grammar that produces the
parse tree is an external library absent from the repository; the spec's
chunk-type vocabulary (§3) tags a local function statement `local_function`
and §4 has its name child carry a name-denoting tag.  This is that node for
the one-line input `local function foo() return 1 end`. -/
def localFnNodeC6 : SyntaxNode := .mk "local_function" 0 33 ⟨0, 0⟩ ⟨0, 33⟩ [nameNodeC6]

/-- Modelled from the spec: root of the parse tree (the grammar being
external, see `localFnNodeC6`) for `local function foo() return 1 end`. -/
def rootC6 : SyntaxNode := .mk "chunk" 0 33 ⟨0, 0⟩ ⟨0, 33⟩ [localFnNodeC6]

/-- Byte buffer of `local function foo() return 1 end` (33 bytes, one line). -/
def srcC6 : List Nat := strBytes "local function foo() return 1 end"

/-- The chunk the code actually produces for the local-function input. -/
def chunkC6 : Chunk :=
  { id := 1, file_path := "c.lua", chunk_type := "local_function",
    content := "local function foo() return 1 end",
    metadata := { node_type := "local_function", name := none, names := none },
    line_start := 1, line_end := 1, parent_id := none }

/-- C6 counterexample: on the (spec-modelled) tree of
`local function foo() return 1 end` the grammar exposes a name child whose
decoded text is `foo`, yet the produced chunk's metadata records no name:
`get_node_metadata` extracts a name only for nodes tagged
`function_definition`, and this node is tagged `local_function`. -/
theorem C6_name_counterexample :
    chunk_lua_file "c.lua" rootC6 srcC6 = .ok [chunkC6] ∧
    nameNodeC6 ∈ localFnNodeC6.children ∧
    nameNodeC6.type = "name" ∧
    extract_node_text nameNodeC6 srcC6 = .ok "foo" ∧
    chunkC6.metadata.name = none :=
  ⟨rfl, List.mem_singleton.mpr rfl, rfl, rfl, rfl⟩

/-- C6 amended: for the input `local function foo() return 1 end`
(spec-modelled tree: one top-level `local_function` node exposing a name
child), extraction returns one chunk with `chunk_type = "local_function"`
and `line_start = line_end = 1`, whose metadata holds only the node type —
no name is recorded, because name extraction applies only to nodes tagged
`function_definition`. -/
theorem C6_local_function_scenario :
    chunk_lua_file "c.lua" rootC6 srcC6 = .ok [chunkC6] ∧
    chunkC6.chunk_type = "local_function" ∧
    chunkC6.line_start = 1 ∧ chunkC6.line_end = 1 ∧
    chunkC6.metadata =
      { node_type := "local_function", name := none, names := none } :=
  ⟨rfl, rfl, rfl, rfl, rfl⟩

/-- C7: strict versus lenient decoding — when any allow-listed direct child
has a byte span that is not valid UTF-8, extraction propagates the decode
error to the caller instead of silently skipping the node; the whole-file
fallback path (here a childless root) instead decodes leniently and
succeeds on arbitrary, also malformed, byte buffers. -/
theorem C7_strict_vs_lenient (fp : String) (root : SyntaxNode) (src : List Nat) :
    ((∃ c ∈ root.children, c.type ∈ interesting_node_types ∧
        extract_node_text c src = .error .decodeError) →
      chunk_lua_file fp root src = .error .decodeError) ∧
    (root.children = [] →
      chunk_lua_file fp root src = .ok [fallback_chunk fp root src]) := by
  constructor
  · intro hx
    unfold chunk_lua_file
    rw [process_children_err root.children [] hx]
  · intro hnil
    unfold chunk_lua_file
    rw [hnil]
    rfl

/-- A comment node spanning the single malformed byte `0xFF`. -/
def badCommentC7 : SyntaxNode := .mk "comment" 0 1 ⟨0, 0⟩ ⟨0, 0⟩ []

/-- Root whose only child is the malformed comment node. -/
def badRootC7 : SyntaxNode := .mk "chunk" 0 1 ⟨0, 0⟩ ⟨0, 0⟩ [badCommentC7]

/-- Childless root over the same malformed byte. -/
def emptyRootC7 : SyntaxNode := .mk "chunk" 0 1 ⟨0, 0⟩ ⟨0, 0⟩ []

/-- The malformed one-byte buffer `0xFF` (no valid UTF-8 decodes it). -/
def srcC7 : List Nat := [0xFF]

/-- Witness for C7: on the byte `0xFF` the interesting-node path raises a
decode error, while the fallback path returns the file chunk with the
replacement character. -/
theorem C7_strict_vs_lenient_witness :
    chunk_lua_file "d.lua" badRootC7 srcC7 = .error .decodeError ∧
    chunk_lua_file "d.lua" emptyRootC7 srcC7 =
      .ok [fallback_chunk "d.lua" emptyRootC7 srcC7] :=
  ⟨(C7_strict_vs_lenient "d.lua" badRootC7 srcC7).1
      ⟨badCommentC7, List.mem_singleton.mpr rfl, by decide, rfl⟩,
   (C7_strict_vs_lenient "d.lua" emptyRootC7 srcC7).2 rfl⟩

/-- C8: given well-formed direct children (end row not before start row),
every chunk of a successful run has `line_start ≤ line_end` and both line
numbers at least 1. -/
theorem C8_line_range_sane (fp : String) (root : SyntaxNode) (src : List Nat)
    (out : List Chunk)
    (hwf : ∀ c ∈ root.children, c.start_point.row ≤ c.end_point.row)
    (h : chunk_lua_file fp root src = .ok out) :
    ∀ ch ∈ out, ch.line_start ≤ ch.line_end ∧ 1 ≤ ch.line_start ∧ 1 ≤ ch.line_end := by
  intro ch hch
  rcases chunk_lua_file_ok_cases h with ⟨rfl, _⟩ | ⟨_, hmem, _⟩
  · have hch2 : ch = fallback_chunk fp root src := List.mem_singleton.mp hch
    subst hch2
    exact ⟨Nat.le_add_left 1 root.end_point.row, Nat.le.refl,
      Nat.le_add_left 1 root.end_point.row⟩
  · obtain ⟨c2, hc2, _, _, _, _, _, _, hls, hle, _⟩ := hmem ch hch
    rw [hls, hle]
    have := hwf c2 hc2
    omega

/-- Witness for C8 on the one-comment run. -/
theorem C8_line_range_sane_witness :
    chunkA.line_start ≤ chunkA.line_end ∧ 1 ≤ chunkA.line_start ∧ 1 ≤ chunkA.line_end :=
  C8_line_range_sane "a.lua" rootA srcA [chunkA] (by decide) rfl chunkA
    (List.mem_singleton.mpr rfl)

/-- C9: every chunk of a successful run, node-derived or fallback, has a
null `parent_id`: the traversal visits only the root's direct children and
always passes `None`. -/
theorem C9_parent_id_null (fp : String) (root : SyntaxNode) (src : List Nat)
    (out : List Chunk) (h : chunk_lua_file fp root src = .ok out) :
    ∀ ch ∈ out, ch.parent_id = none := by
  intro ch hch
  rcases chunk_lua_file_ok_cases h with ⟨rfl, _⟩ | ⟨_, hmem, _⟩
  · have hch2 : ch = fallback_chunk fp root src := List.mem_singleton.mp hch
    subst hch2
    rfl
  · obtain ⟨c2, _, _, _, _, _, _, _, _, _, hpid⟩ := hmem ch hch
    exact hpid

/-- Witness for C9 on the one-comment run. -/
theorem C9_parent_id_null_witness : chunkA.parent_id = none :=
  C9_parent_id_null "a.lua" rootA srcA [chunkA] rfl chunkA
    (List.mem_singleton.mpr rfl)

/-- C10: every chunk's metadata records `node_type` equal to the chunk's
`chunk_type` — the node's syntax tag for node-derived chunks and `"file"`
for the fallback chunk. -/
theorem C10_metadata_matches_type (fp : String) (root : SyntaxNode) (src : List Nat)
    (out : List Chunk) (h : chunk_lua_file fp root src = .ok out) :
    ∀ ch ∈ out, ch.metadata.node_type = ch.chunk_type := by
  intro ch hch
  rcases chunk_lua_file_ok_cases h with ⟨rfl, _⟩ | ⟨_, hmem, _⟩
  · have hch2 : ch = fallback_chunk fp root src := List.mem_singleton.mp hch
    subst hch2
    rfl
  · obtain ⟨c2, _, _, _, _, hmd, _, hct, _⟩ := hmem ch hch
    rw [get_node_metadata_node_type hmd, hct]

/-- Witness for C10 on the one-comment run. -/
theorem C10_metadata_matches_type_witness :
    chunkA.metadata.node_type = chunkA.chunk_type :=
  C10_metadata_matches_type "a.lua" rootA srcA [chunkA] rfl chunkA
    (List.mem_singleton.mpr rfl)

end DcsLua
